import Mathlib

/-!
# ciLisp: the evaluation core of ciLisp.c

A shallow embedding of `src/ciLisp.c`: the operation registry (`funcNames`, `resolveFunc`),
the node builders (`createNumberNode`, `createFunctionNode`), the evaluator (`eval`,
`evalNumNode`, `setNumType`, `evalFuncNode`) and the destructor (`freeNode`), followed by
the properties proved of them.

Conventions of the embedding.
* A C `double` is the datum `Double` below; `+ - * /`, `fabs`, `fmax`, `fmin`, `fmod`, `ceil`,
  `round` and `==` are modelled on it after IEEE-754 and the C standard.  The remaining
  functions of `<math.h>` (`sqrt`, `exp`, `log`, `pow`, `exp2`, `cbrt`, `hypot`) are not fixed
  bit for bit by the C standard; they are a parameter `MathLib` of the evaluator.
* A C string (`char *`) is given by its characters before the terminating NUL.
* `stderr` is a list of the texts written to it, threaded through the evaluator.
* The heap is not modelled: `freeNode` yields the list of the calls of `free` it makes, a
  node being named by its place in the tree.
* Allocation (`calloc`) is taken to succeed.
-/

set_option linter.unusedVariables false

namespace CiLisp

/-- A C `double` (IEEE-754 binary64) as a datum: not-a-number, a signed infinity, or the
finite value `(-1)^neg * m * 2^e`.  Zero is `m = 0` and keeps its sign.  A value has several
representations (`fin false 2 0` and `fin false 1 1` are both 2.0); the C comparison `==`
is `Double.eq`, which compares values. -/
inductive Double
  | nan
  | inf (neg : Bool)
  | fin (neg : Bool) (m : Nat) (e : Int)
  deriving DecidableEq

namespace Double

/-- Number of binary digits of `n`, computed with `fuel` halvings (`fuel = n` suffices). -/
def bitLen : Nat → Nat → Nat
  | 0, _ => 0
  | fuel + 1, n => if n = 0 then 0 else bitLen fuel (n / 2) + 1

/-- Drops the trailing zero bits of a mantissa, raising the exponent accordingly. -/
def strip : Nat → Nat → Int → Nat × Int
  | 0, m, e => (m, e)
  | fuel + 1, m, e => if m = 0 then (0, 0) else if m % 2 = 0 then strip fuel (m / 2) (e + 1) else (m, e)

/-- The finite value `(-1)^neg * m * 2^e` with its mantissa stripped of trailing zeros. -/
def mk (neg : Bool) (m : Nat) (e : Int) : Double :=
  fin neg (strip m m e).1 (strip m m e).2

/-- Rounding to nearest, ties to even, of the exact value `(-1)^neg * (n / d) * 2^e` into
binary64: 53 significant bits, least exponent -1074, overflow to infinity from `2^1024`. -/
def round64 (neg : Bool) (n d : Nat) (e : Int) : Double :=
  if n = 0 then fin neg 0 0 else
  let bn : Int := bitLen n n
  let bd : Int := bitLen d d
  -- position of the leading bit of n / d
  let l : Int := if d * 2 ^ (bn - bd).toNat ≤ n * 2 ^ (bd - bn).toNat then bn - bd else bn - bd - 1
  -- exponent of the last kept bit
  let ex : Int := max (l + e - 52) (-1074)
  let num : Nat := n * 2 ^ (e - ex).toNat
  let den : Nat := d * 2 ^ (ex - e).toNat
  let q : Nat := num / den
  let r : Nat := num % den
  let q1 : Nat := if den < 2 * r ∨ (2 * r = den ∧ q % 2 = 1) then q + 1 else q
  if q1 = 0 then fin neg 0 0
  else if 1024 < (bitLen q1 q1 : Int) + ex then inf neg
  else mk neg q1 ex

def isNaN : Double → Bool
  | nan => true
  | _ => false

def isFinite : Double → Bool
  | fin _ _ _ => true
  | _ => false

/-- Whether the datum is a binary64 value: a finite one needs at most 53 significant bits,
with the last one at exponent -1074 or above, and magnitude below `2^1024`. -/
def isBinary64 : Double → Bool
  | fin _ m e =>
      let s := strip m m e
      s.1 = 0 ∨ (bitLen s.1 s.1 ≤ 53 ∧ -1074 ≤ s.2 ∧ (bitLen s.1 s.1 : Int) + s.2 ≤ 1024)
  | _ => true

/-- C `==` on doubles: false on NaN, zeros of either sign are equal. -/
def eq : Double → Double → Bool
  | inf s, inf t => s = t
  | fin s m e, fin t n f =>
      (m = 0 ∧ n = 0) ∨ (s = t ∧ m * 2 ^ (e - min e f).toNat = n * 2 ^ (f - min e f).toNat)
  | _, _ => false

/-- C `<` on doubles: false when either side is NaN. -/
def lt : Double → Double → Bool
  | inf s, inf t => s && !t
  | inf s, fin _ _ _ => s
  | fin _ _ _, inf t => !t
  | fin s m e, fin t n f =>
      let a : Int := (if s then -1 else 1) * (m * 2 ^ (e - min e f).toNat : Nat)
      let b : Int := (if t then -1 else 1) * (n * 2 ^ (f - min e f).toNat : Nat)
      a < b
  | _, _ => false

/-- Unary minus: flips the sign; NaN stays NaN. -/
def neg : Double → Double
  | nan => nan
  | inf s => inf (!s)
  | fin s m e => fin (!s) m e

/-- C `fabs`. -/
def fabs : Double → Double
  | nan => nan
  | inf _ => inf false
  | fin _ m e => fin false m e

/-- C `+` on doubles. -/
def add : Double → Double → Double
  | nan, _ => nan
  | _, nan => nan
  | inf s, inf t => if s = t then inf s else nan
  | inf s, fin _ _ _ => inf s
  | fin _ _ _, inf t => inf t
  | fin s m e, fin t n f =>
      let a : Int := (if s then -1 else 1) * (m * 2 ^ (e - min e f).toNat : Nat)
      let b : Int := (if t then -1 else 1) * (n * 2 ^ (f - min e f).toNat : Nat)
      if a + b = 0 then fin (s && t) 0 0
      else round64 (decide (a + b < 0)) (a + b).natAbs 1 (min e f)

/-- C `-` on doubles. -/
def sub (x y : Double) : Double := add x (neg y)

/-- C `*` on doubles. -/
def mul : Double → Double → Double
  | nan, _ => nan
  | _, nan => nan
  | inf s, inf t => inf (xor s t)
  | inf s, fin t n _ => if n = 0 then nan else inf (xor s t)
  | fin s m _, inf t => if m = 0 then nan else inf (xor s t)
  | fin s m e, fin t n f => round64 (xor s t) (m * n) 1 (e + f)

/-- C `/` on doubles. -/
def div : Double → Double → Double
  | nan, _ => nan
  | _, nan => nan
  | inf _, inf _ => nan
  | inf s, fin t _ _ => inf (xor s t)
  | fin s _ _, inf t => fin (xor s t) 0 0
  | fin s m e, fin t n f =>
      if n = 0 then (if m = 0 then nan else inf (xor s t))
      else round64 (xor s t) m n (e - f)

/-- C `fmax`: a NaN argument is treated as missing, the other argument is returned. -/
def fmax : Double → Double → Double
  | nan, y => y
  | x, nan => x
  | x, y => if lt x y then y else x

/-- C `fmin`: a NaN argument is treated as missing, the other argument is returned. -/
def fmin : Double → Double → Double
  | nan, y => y
  | x, nan => x
  | x, y => if lt y x then y else x

/-- C `fmod`: the remainder of `x / y` with the quotient truncated, with the sign of `x`. -/
def fmod : Double → Double → Double
  | nan, _ => nan
  | _, nan => nan
  | inf _, _ => nan
  | fin s m e, inf _ => fin s m e
  | fin s m e, fin _ n f =>
      if n = 0 then nan
      else mk s ((m * 2 ^ (e - min e f).toNat) % (n * 2 ^ (f - min e f).toNat)) (min e f)

/-- C `ceil`: the least integral value not below the argument. -/
def ceil : Double → Double
  | nan => nan
  | inf s => inf s
  | fin s m e =>
      if 0 ≤ e then fin s m e
      else if s then fin true (m / 2 ^ (-e).toNat) 0
      else fin false ((m + 2 ^ (-e).toNat - 1) / 2 ^ (-e).toNat) 0

/-- C `round`: the nearest integral value, halfway cases away from zero. -/
def round : Double → Double
  | nan => nan
  | inf s => inf s
  | fin s m e =>
      if 0 ≤ e then fin s m e
      else fin s ((2 * m + 2 ^ (-e).toNat) / (2 * 2 ^ (-e).toNat)) 0


end Double

/-- The functions of `<math.h>` that the evaluator calls and that the C standard does not
fix bit for bit.  The evaluator takes them as a parameter. -/
structure MathLib where
  sqrt : Double → Double
  exp : Double → Double
  log : Double → Double
  exp2 : Double → Double
  cbrt : Double → Double
  pow : Double → Double → Double
  hypot : Double → Double → Double

/-- A math library that maps a NaN argument to NaN, as Annex F of the C standard asks of the
one-argument functions the evaluator calls. -/
def MathLib.PropagatesNaN (M : MathLib) : Prop :=
  M.sqrt .nan = .nan ∧ M.exp .nan = .nan ∧ M.log .nan = .nan ∧ M.exp2 .nan = .nan ∧
    M.cbrt .nan = .nan

/-- A math library whose functions return NaN everywhere.  It stands for `<math.h>` in the
closed examples, which are over trees that call none of its functions. -/
def MathLib.nanLib : MathLib where
  sqrt := fun _ => .nan
  exp := fun _ => .nan
  log := fun _ => .nan
  exp2 := fun _ => .nan
  cbrt := fun _ => .nan
  pow := fun _ _ => .nan
  hypot := fun _ _ => .nan

/-- A math library defined at the arguments where Annex F of the C standard fixes the
result exactly: zeros, infinities and NaN for the one-argument functions, `pow(x, ±0) = 1`,
`pow(+1, y) = 1` and `hypot` with an infinite argument.  At every other argument, where a
real library returns a rounded value, it returns NaN.  It shows `PropagatesNaN` to hold of a
library that is not NaN everywhere. -/
def MathLib.annexF : MathLib where
  sqrt := fun x =>
    match x with
    | .fin s 0 _ => .fin s 0 0
    | .inf false => .inf false
    | _ => .nan
  exp := fun x =>
    match x with
    | .fin _ 0 _ => .fin false 1 0
    | .inf true => .fin false 0 0
    | .inf false => .inf false
    | _ => .nan
  log := fun x =>
    match x with
    | .fin _ 0 _ => .inf true
    | .inf false => .inf false
    | .fin false m e => if Double.eq (.fin false m e) (.fin false 1 0) then .fin false 0 0 else .nan
    | _ => .nan
  exp2 := fun x =>
    match x with
    | .fin _ 0 _ => .fin false 1 0
    | .inf true => .fin false 0 0
    | .inf false => .inf false
    | _ => .nan
  cbrt := fun x =>
    match x with
    | .fin s 0 _ => .fin s 0 0
    | .inf s => .inf s
    | _ => .nan
  pow := fun x y =>
    match y with
    | .fin _ 0 _ => .fin false 1 0
    | _ => if Double.eq x (.fin false 1 0) then .fin false 1 0 else .nan
  hypot := fun x y =>
    match x, y with
    | .inf _, _ => .inf false
    | _, .inf _ => .inf false
    | _, _ => .nan

/-- Modelled from the spec: the enumeration `OPER_TYPE` of `ciLisp.h`, a file that is not
under `src/`.  The spec (§3) gives the built-in operations in this order, "index i of the
name list corresponds to enumeration value i", "plus one open-ended member CUSTOM". -/
inductive OPER_TYPE
  | NEG_OPER
  | ABS_OPER
  | EXP_OPER
  | SQRT_OPER
  | ADD_OPER
  | SUB_OPER
  | MULT_OPER
  | DIV_OPER
  | REMAINDER_OPER
  | LOG_OPER
  | POW_OPER
  | MAX_OPER
  | MIN_OPER
  | EXP2_OPER
  | CBRT_OPER
  | HYPOT_OPER
  | READ_OPER
  | RAND_OPER
  | PRINT_OPER
  | EQUAL_OPER
  | LESS_OPER
  | GREATER_OPER
  | CUSTOM_OPER
  deriving DecidableEq

/-- Modelled from the spec: the enumerator of `OPER_TYPE` whose value is `i`, for the values
0 to 21 of the built-in operations (the conversion at `return i;` in `resolveFunc`).  The
numeric value of `CUSTOM_OPER` is not given by the spec; it is the image of no index that
`resolveFunc` returns. -/
def OPER_TYPE.ofIndex : Nat → OPER_TYPE
  | 0 => .NEG_OPER
  | 1 => .ABS_OPER
  | 2 => .EXP_OPER
  | 3 => .SQRT_OPER
  | 4 => .ADD_OPER
  | 5 => .SUB_OPER
  | 6 => .MULT_OPER
  | 7 => .DIV_OPER
  | 8 => .REMAINDER_OPER
  | 9 => .LOG_OPER
  | 10 => .POW_OPER
  | 11 => .MAX_OPER
  | 12 => .MIN_OPER
  | 13 => .EXP2_OPER
  | 14 => .CBRT_OPER
  | 15 => .HYPOT_OPER
  | 16 => .READ_OPER
  | 17 => .RAND_OPER
  | 18 => .PRINT_OPER
  | 19 => .EQUAL_OPER
  | 20 => .LESS_OPER
  | 21 => .GREATER_OPER
  | _ => .CUSTOM_OPER

/-- Modelled from the spec: `NUM_TYPE` of `ciLisp.h` (not under `src/`), the two tags of a
numeric value; `numNames` names them "Integer" and "Double". -/
inductive NUM_TYPE
  | INT_TYPE
  | DOUBLE_TYPE
  deriving DecidableEq

/-- Modelled from the spec: `RET_VAL` of `ciLisp.h` (not under `src/`), the tagged value
`{type, value}`; it is the same type as `NUM_AST_NODE`. -/
structure RET_VAL where
  type : NUM_TYPE
  value : Double
  deriving DecidableEq

/-- A `char *` handed to the builder: the address of the string and the characters stored
there.  Two pointers to equal characters at different addresses are different pointers. -/
structure CString where
  addr : Nat
  chars : String
  deriving DecidableEq

/-- Modelled from the spec: an `AST_NODE *` of `ciLisp.h` (not under `src/`): the null
pointer, or the node it points to with its children.  A node is a number leaf (`type` is
`NUM_NODE_TYPE`, `data.number` is a `RET_VAL`), a function call (`type` is `FUNC_NODE_TYPE`,
`data.function` holds `oper`, `ident`, `op1`, `op2`), or a node whose `type` field holds
neither of the two tags; of such a node the model keeps the two pointers that lie in its
union where a function call has its operands. -/
inductive AST_NODE
  | null
  | num (number : RET_VAL)
  | func (oper : OPER_TYPE) (ident : Option CString) (op1 op2 : AST_NODE)
  | invalid (op1 op2 : AST_NODE)
  deriving DecidableEq

/-- The text `yyerror` writes to `stderr`. -/
def yyerror (s : String) : String := "\nERROR: " ++ s ++ "\n"

/-- The table `funcNames`; its last entry is the empty string that ends the scan. -/
def funcNames : List String :=
  ["neg", "abs", "exp", "sqrt", "add", "sub", "mult", "div", "remainder", "log", "pow", "max",
   "min", "exp2", "cbrt", "hypot", "read", "rand", "print", "equal", "less", "greater", ""]

/-- How the loop of `resolveFunc` ends: at `return i;` with a matching entry, at the entry
that fails the loop test (`return CUSTOM_OPER;`), or by reading `funcNames[i]` beyond the
last entry of the table. -/
inductive Scan
  | found (i : Nat)
  | sentinel (i : Nat)
  | overrun (i : Nat)
  deriving DecidableEq

/-- The `while` loop of `resolveFunc` entered with counter `i`; the list holds the entries
`funcNames[i]`, `funcNames[i+1]`, ... that are left to read. -/
def resolveFuncLoop (funcName : String) : List String → Nat → Scan
  | [], i => .overrun i
  | entry :: rest, i =>
      if entry = "" then .sentinel i
      else if entry = funcName then .found i
      else resolveFuncLoop funcName rest (i + 1)

/-- The scan of `resolveFunc` over `funcNames`, from `i = 0`. -/
def resolveFuncScan (funcName : String) : Scan :=
  resolveFuncLoop funcName funcNames 0

/-- The function `resolveFunc`: the enumerator of the matching index, `CUSTOM_OPER` when the
scan stops at the sentinel.  (A scan that left the table would have no defined result; it is
shown below not to happen.) -/
def resolveFunc (funcName : String) : OPER_TYPE :=
  match resolveFuncScan funcName with
  | .found i => OPER_TYPE.ofIndex i
  | .sentinel _ => .CUSTOM_OPER
  | .overrun _ => .CUSTOM_OPER

/-- The function `createNumberNode`.  The parameter `type` is not read. -/
def createNumberNode (value : Double) (type : NUM_TYPE) : AST_NODE :=
  .num { type := if Double.eq (Double.round value) value then .INT_TYPE else .DOUBLE_TYPE,
         value := value }

/-- What `createFunctionNode` leaves behind: the node it returns and the strings it handed
to `free`. -/
structure Built where
  node : AST_NODE
  freed : List CString
  deriving DecidableEq

/-- The function `createFunctionNode`.  The node comes zeroed from `calloc`, so `ident` is
null unless it is assigned. -/
def createFunctionNode (funcName : CString) (op1 op2 : AST_NODE) : Built :=
  let oper := resolveFunc funcName.chars
  if oper = .CUSTOM_OPER then
    { node := .func oper (some funcName) op1 op2, freed := [] }
  else
    { node := .func oper none op1 op2, freed := [funcName] }

/-- What an evaluation produces: the `RET_VAL` returned and the texts written to `stderr`. -/
structure Outcome where
  result : RET_VAL
  stderr : List String
  deriving DecidableEq

/-- The value `(RET_VAL){INT_TYPE, NAN}`, returned with nothing written to `stderr`. -/
def sentinel : Outcome :=
  { result := { type := .INT_TYPE, value := .nan }, stderr := [] }

/-- The body of `evalNumNode` on a node whose `number` member is `number`: `result` starts as
`{INT_TYPE, NAN}` and both fields are then overwritten from the node. -/
def evalNumBody (number : RET_VAL) : Outcome :=
  let result : RET_VAL := { type := .INT_TYPE, value := .nan }
  let result : RET_VAL := { result with type := number.type }
  let result : RET_VAL := { result with value := number.value }
  { result := result, stderr := [] }

/-- The function `evalNumNode`.  On a node that is not a number leaf the C code reads the
`number` member of a union that holds something else; the model has no value for that. -/
def evalNumNode : AST_NODE → Option Outcome
  | .null => some sentinel
  | .num number => some (evalNumBody number)
  | _ => none

/-- The function `setNumType`.  Its parameter is a `RET_VAL` passed by value and it returns
nothing: the value given here is the final state of the local copy `num`. -/
def setNumType (num : RET_VAL) : RET_VAL :=
  if Double.eq (Double.ceil num.value) num.value then { num with type := .INT_TYPE }
  else { num with type := .DOUBLE_TYPE }

/-- The body of `evalFuncNode` on a node with operation `oper`; `r1` and `r2` stand for
`eval(node->data.function.op1)` and `eval(node->data.function.op2)` at the places where the
C code calls them (op1 before op2; every text `eval` writes is the same, so the order does
not show).  A case that does not call `eval` on an operand takes nothing from it. -/
def evalFuncSwitch (M : MathLib) (oper : OPER_TYPE) (r1 r2 : Outcome) : Outcome :=
  let result : RET_VAL := { type := .INT_TYPE, value := .nan }
  let out : Outcome :=
    match oper with
    | .NEG_OPER => ⟨{ result with value := Double.neg r1.result.value }, r1.stderr⟩
    | .ABS_OPER => ⟨{ result with value := Double.fabs r1.result.value }, r1.stderr⟩
    | .SQRT_OPER => ⟨{ result with value := M.sqrt r1.result.value }, r1.stderr⟩
    | .EXP_OPER => ⟨{ result with value := M.exp r1.result.value }, r1.stderr⟩
    | .ADD_OPER =>
        ⟨{ result with value := Double.add r1.result.value r2.result.value },
          r1.stderr ++ r2.stderr⟩
    | .SUB_OPER =>
        ⟨{ result with value := Double.sub r1.result.value r2.result.value },
          r1.stderr ++ r2.stderr⟩
    | .MAX_OPER =>
        ⟨{ result with value := Double.fmax r1.result.value r2.result.value },
          r1.stderr ++ r2.stderr⟩
    | .MIN_OPER =>
        ⟨{ result with value := Double.fmin r1.result.value r2.result.value },
          r1.stderr ++ r2.stderr⟩
    | .MULT_OPER =>
        ⟨{ result with value := Double.mul r1.result.value r2.result.value },
          r1.stderr ++ r2.stderr⟩
    | .REMAINDER_OPER =>
        ⟨{ result with value := Double.fmod r1.result.value r2.result.value },
          r1.stderr ++ r2.stderr⟩
    | .DIV_OPER =>
        ⟨{ result with value := Double.div r1.result.value r2.result.value },
          r1.stderr ++ r2.stderr⟩
    | .LOG_OPER => ⟨{ result with value := M.log r1.result.value }, r1.stderr⟩
    | .POW_OPER =>
        ⟨{ result with value := M.pow r1.result.value r2.result.value },
          r1.stderr ++ r2.stderr⟩
    | .EXP2_OPER => ⟨{ result with value := M.exp2 r1.result.value }, r1.stderr⟩
    | .CBRT_OPER => ⟨{ result with value := M.cbrt r1.result.value }, r1.stderr⟩
    | .HYPOT_OPER =>
        ⟨{ result with value := M.hypot r1.result.value r2.result.value },
          r1.stderr ++ r2.stderr⟩
    | .READ_OPER => ⟨result, []⟩
    | .RAND_OPER => ⟨result, []⟩
    | .PRINT_OPER => ⟨result, []⟩
    | .EQUAL_OPER => ⟨result, []⟩
    | .LESS_OPER => ⟨result, []⟩
    | .GREATER_OPER => ⟨result, []⟩
    | .CUSTOM_OPER => ⟨result, []⟩
  -- setNumType(result): the callee works on its own copy, which is dropped on return
  let _num : RET_VAL := setNumType out.result
  out

/-- The function `eval`.  The `FUNC_NODE_TYPE` case is the call `evalFuncNode(node)`, whose
body is `evalFuncSwitch` over the evaluations of the two operands; the `NUM_NODE_TYPE` case
is the call `evalNumNode(node)`, whose body is `evalNumBody`. -/
def eval (M : MathLib) : AST_NODE → Outcome
  | .null => sentinel
  | .num number => evalNumBody number
  | .func oper _ op1 op2 => evalFuncSwitch M oper (eval M op1) (eval M op2)
  | .invalid _ _ =>
      { result := { type := .INT_TYPE, value := .nan },
        stderr := [yyerror "Invalid AST_NODE_TYPE, probably invalid writes somewhere!"] }

/-- The function `evalFuncNode`.  On a node that is not a function call the C code reads the
`function` member of a union that holds something else; the model has no value for that. -/
def evalFuncNode (M : MathLib) : AST_NODE → Option Outcome
  | .null => some sentinel
  | .func oper _ op1 op2 => some (evalFuncSwitch M oper (eval M op1) (eval M op2))
  | _ => none

/-- A number leaf holding the given tag and magnitude, whether or not the tag is the one
`createNumberNode` would derive from the magnitude. -/
def leaf (type : NUM_TYPE) (value : Double) : AST_NODE :=
  .num { type := type, value := value }

/-- One step down from a function-call node: to its first or to its second operand. -/
inductive Step
  | op1
  | op2
  deriving DecidableEq

/-- The place of a node in a tree: the steps that lead to it from the root.  A tree shares
no node, so a place stands for the pointer to the node found there. -/
abbrev Path := List Step

/-- The node found at a place of a tree, following the operands of function-call nodes;
`null` when the path leaves the tree. -/
def nodeAt : AST_NODE → Path → AST_NODE
  | n, [] => n
  | .func _ _ op1 _, .op1 :: rest => nodeAt op1 rest
  | .func _ _ _ op2, .op2 :: rest => nodeAt op2 rest
  | _, _ :: _ => .null

/-- A call of `free` made by `freeNode`: `free(node)` for the node at a place, or
`free(node->data.function.ident)` for the node at a place, with the pointer passed. -/
inductive Release
  | node (place : Path)
  | name (place : Path) (ident : CString)
  deriving DecidableEq

/-- The place of the node for which a call of `free` is made. -/
def Release.place : Release → Path
  | .node place => place
  | .name place _ => place

/-- The function `freeNode`, called on the node at `place`: the calls of `free` it makes, in
order.  `free` of a null `ident` does nothing and is not listed. -/
def freeNode : AST_NODE → Path → List Release
  | .null, _ => []
  | .func oper ident op1 op2, place =>
      freeNode op1 (place ++ [.op1]) ++ freeNode op2 (place ++ [.op2]) ++
        (if oper = .CUSTOM_OPER then
          (match ident with
            | some s => [.name place s]
            | none => [])
         else []) ++
        [.node place]
  | .num _, place => [.node place]
  | .invalid _ _, place => [.node place]

/-- The tree with the tag of every number leaf set to `INT_TYPE`.  Two trees have the same
shape, operations, names and leaf magnitudes, and differ at most in the tags of their
number leaves, exactly when this gives the same tree for both. -/
def eraseTags : AST_NODE → AST_NODE
  | .null => .null
  | .num number => .num { type := .INT_TYPE, value := number.value }
  | .func oper ident op1 op2 => .func oper ident (eraseTags op1) (eraseTags op2)
  | .invalid op1 op2 => .invalid op1 op2

/-! ## Integral values: `round` and `ceil` -/

/-- Rounding half up of an exact multiple of `d` gives the multiple back. -/
theorem half_up_div (c d : Nat) (hd : 0 < d) : (2 * (c * d) + d) / (2 * d) = c := by
  have h : 2 * (c * d) + d = d * (2 * c + 1) := by ring
  rw [h, Nat.mul_comm 2 d, Nat.mul_div_mul_left _ _ hd]
  omega

theorem ceil_div (c d : Nat) (hd : 0 < d) : (c * d + d - 1) / d = c := by
  apply Nat.div_eq_of_lt_le
  · omega
  · rw [Nat.succ_mul]; omega

theorem round_exact_iff (m d : Nat) (hd : 0 < d) : (2 * m + d) / (2 * d) * d = m ↔ d ∣ m := by
  constructor
  · intro h; exact ⟨(2 * m + d) / (2 * d), by rw [Nat.mul_comm]; exact h.symm⟩
  · rintro ⟨c, rfl⟩
    rw [Nat.mul_comm d c, half_up_div c d hd]

theorem ceil_exact_iff (m d : Nat) (hd : 0 < d) : (m + d - 1) / d * d = m ↔ d ∣ m := by
  constructor
  · intro h; exact ⟨(m + d - 1) / d, by rw [Nat.mul_comm]; exact h.symm⟩
  · rintro ⟨c, rfl⟩
    rw [Nat.mul_comm d c, ceil_div c d hd]

theorem floor_exact_iff (m d : Nat) : m / d * d = m ↔ d ∣ m := by
  constructor
  · intro h; exact ⟨m / d, by rw [Nat.mul_comm]; exact h.symm⟩
  · intro h; exact Nat.div_mul_cancel h

theorem Double.eq_int_fin (s t : Bool) (q m : Nat) (e : Int) (he : e < 0) :
    Double.eq (.fin s q 0) (.fin t m e) =
      decide ((q = 0 ∧ m = 0) ∨ (s = t ∧ q * 2 ^ (-e).toNat = m)) := by
  have hmin : min 0 e = e := min_eq_right (le_of_lt he)
  simp [Double.eq, hmin]

/-- On a finite double the test `round(v) == v` of `createNumberNode` and the test
`ceil(v) == v` of `setNumType` give the same answer. -/
theorem Double.round_eq_ceil_eq (v : Double) (h : v.isFinite = true) :
    Double.eq (Double.round v) v = Double.eq (Double.ceil v) v := by
  cases v with
  | nan => simp [Double.isFinite] at h
  | inf s => simp [Double.isFinite] at h
  | fin s m e =>
    by_cases he : 0 ≤ e
    · simp [Double.round, Double.ceil, he]
    · have he2 : e < 0 := not_le.mp he
      have hd : 0 < 2 ^ (-e).toNat := Nat.pow_pos (by decide)
      have key : ∀ (t : Bool) (q : Nat),
          Double.eq (.fin t q 0) (.fin t m e) = decide (q * 2 ^ (-e).toNat = m) := by
        intro t q
        rw [Double.eq_int_fin _ _ _ _ _ he2, decide_eq_decide]
        constructor
        · rintro (⟨hq, hm⟩ | ⟨_, hqm⟩)
          · simp [hq, hm]
          · exact hqm
        · intro hqm
          exact Or.inr ⟨rfl, hqm⟩
      cases s
      · simp only [Double.round, Double.ceil, he, if_false, Bool.false_eq_true, key,
          decide_eq_decide]
        rw [round_exact_iff m _ hd, ceil_exact_iff m _ hd]
      · simp only [Double.round, Double.ceil, he, if_false, if_true, key, decide_eq_decide]
        rw [round_exact_iff m _ hd, floor_exact_iff m _]

/-! ## NaN as an operand -/

theorem Double.add_nan_left (y : Double) : Double.add .nan y = .nan := by
  cases y <;> rfl

theorem Double.add_nan_right (x : Double) : Double.add x .nan = .nan := by
  cases x <;> rfl

theorem Double.sub_nan_left (y : Double) : Double.sub .nan y = .nan := by
  cases y <;> rfl

theorem Double.sub_nan_right (x : Double) : Double.sub x .nan = .nan := by
  cases x <;> rfl

theorem Double.mul_nan_left (y : Double) : Double.mul .nan y = .nan := by
  cases y <;> rfl

theorem Double.mul_nan_right (x : Double) : Double.mul x .nan = .nan := by
  cases x <;> rfl

theorem Double.div_nan_left (y : Double) : Double.div .nan y = .nan := by
  cases y <;> rfl

theorem Double.div_nan_right (x : Double) : Double.div x .nan = .nan := by
  cases x <;> rfl

theorem Double.fmod_nan_left (y : Double) : Double.fmod .nan y = .nan := by
  cases y <;> rfl

theorem Double.fmod_nan_right (x : Double) : Double.fmod x .nan = .nan := by
  cases x <;> rfl

theorem Double.fmax_nan_left (y : Double) : Double.fmax .nan y = y := by
  cases y <;> rfl

theorem Double.fmax_nan_right (x : Double) : Double.fmax x .nan = x := by
  cases x <;> rfl

theorem Double.fmin_nan_left (y : Double) : Double.fmin .nan y = y := by
  cases y <;> rfl

theorem Double.fmin_nan_right (x : Double) : Double.fmin x .nan = x := by
  cases x <;> rfl

/-! ## The operation registry -/

/-- C1. Each of the 22 built-in names of `funcNames` resolves to its own table position: the
scan of `resolveFunc` stops at `return i;` with `i` the index of the name (0 for "neg" up to
21 for "greater"), the value returned is the enumerator of that index, and it is never
`CUSTOM_OPER`. -/
theorem resolveFunc_builtin :
    funcNames.take 22 =
        ["neg", "abs", "exp", "sqrt", "add", "sub", "mult", "div", "remainder", "log", "pow",
         "max", "min", "exp2", "cbrt", "hypot", "read", "rand", "print", "equal", "less",
         "greater"] ∧
      (funcNames.take 22).map resolveFuncScan = (List.range 22).map Scan.found ∧
      (funcNames.take 22).map resolveFunc = (List.range 22).map OPER_TYPE.ofIndex ∧
      (∀ name ∈ funcNames.take 22, resolveFunc name ≠ .CUSTOM_OPER) := by
  decide

/-- C2. A string that is not one of the 22 built-in names resolves to `CUSTOM_OPER`: the
scan passes all 22 entries without a match and stops at the sentinel, index 22.  Matching
is exact and case-sensitive. -/
theorem resolveFunc_custom (funcName : String) (h : funcName ∉ funcNames.take 22) :
    resolveFuncScan funcName = .sentinel 22 ∧ resolveFunc funcName = .CUSTOM_OPER := by
  simp [funcNames] at h
  obtain ⟨h0, h1, h2, h3, h4, h5, h6, h7, h8, h9, h10, h11, h12, h13, h14, h15, h16, h17, h18,
    h19, h20, h21⟩ := h
  have hs : resolveFuncScan funcName = .sentinel 22 := by
    simp [resolveFuncScan, resolveFuncLoop, funcNames, Ne.symm h0, Ne.symm h1, Ne.symm h2,
      Ne.symm h3, Ne.symm h4, Ne.symm h5, Ne.symm h6, Ne.symm h7, Ne.symm h8, Ne.symm h9,
      Ne.symm h10, Ne.symm h11, Ne.symm h12, Ne.symm h13, Ne.symm h14, Ne.symm h15,
      Ne.symm h16, Ne.symm h17, Ne.symm h18, Ne.symm h19, Ne.symm h20, Ne.symm h21]
  exact ⟨hs, by simp [resolveFunc, hs]⟩

/-- C2, at a proper prefix, an extension, a case variant and the empty string. -/
theorem resolveFunc_custom_witness :
    resolveFunc "ad" = .CUSTOM_OPER ∧ resolveFunc "adds" = .CUSTOM_OPER ∧
      resolveFunc "ADD" = .CUSTOM_OPER ∧ resolveFunc "" = .CUSTOM_OPER :=
  ⟨(resolveFunc_custom "ad" (by decide)).2, (resolveFunc_custom "adds" (by decide)).2,
    (resolveFunc_custom "ADD" (by decide)).2, (resolveFunc_custom "" (by decide)).2⟩

/-! ## The evaluator -/

/-- C3. The magnitude of a function call with a computed operation is the function of the
table applied to `a = eval(op1).value` and `b = eval(op2).value`, for arbitrary operand
subtrees; `evalFuncNode` returns what `eval` returns on such a node.  In particular ADD over
two leaves holding `a` and `b` has magnitude `a + b`, and NEG over a leaf holding 5 has
magnitude -5. -/
theorem eval_func_magnitude (M : MathLib) (ident : Option CString) (op1 op2 : AST_NODE) :
    (eval M (.func .NEG_OPER ident op1 op2)).result.value
        = Double.neg (eval M op1).result.value ∧
      (eval M (.func .ABS_OPER ident op1 op2)).result.value
        = Double.fabs (eval M op1).result.value ∧
      (eval M (.func .SQRT_OPER ident op1 op2)).result.value
        = M.sqrt (eval M op1).result.value ∧
      (eval M (.func .EXP_OPER ident op1 op2)).result.value
        = M.exp (eval M op1).result.value ∧
      (eval M (.func .ADD_OPER ident op1 op2)).result.value
        = Double.add (eval M op1).result.value (eval M op2).result.value ∧
      (eval M (.func .SUB_OPER ident op1 op2)).result.value
        = Double.sub (eval M op1).result.value (eval M op2).result.value ∧
      (eval M (.func .MULT_OPER ident op1 op2)).result.value
        = Double.mul (eval M op1).result.value (eval M op2).result.value ∧
      (eval M (.func .DIV_OPER ident op1 op2)).result.value
        = Double.div (eval M op1).result.value (eval M op2).result.value ∧
      (eval M (.func .MAX_OPER ident op1 op2)).result.value
        = Double.fmax (eval M op1).result.value (eval M op2).result.value ∧
      (eval M (.func .MIN_OPER ident op1 op2)).result.value
        = Double.fmin (eval M op1).result.value (eval M op2).result.value ∧
      (eval M (.func .REMAINDER_OPER ident op1 op2)).result.value
        = Double.fmod (eval M op1).result.value (eval M op2).result.value ∧
      (eval M (.func .POW_OPER ident op1 op2)).result.value
        = M.pow (eval M op1).result.value (eval M op2).result.value ∧
      (eval M (.func .HYPOT_OPER ident op1 op2)).result.value
        = M.hypot (eval M op1).result.value (eval M op2).result.value ∧
      (eval M (.func .LOG_OPER ident op1 op2)).result.value
        = M.log (eval M op1).result.value ∧
      (eval M (.func .EXP2_OPER ident op1 op2)).result.value
        = M.exp2 (eval M op1).result.value ∧
      (eval M (.func .CBRT_OPER ident op1 op2)).result.value
        = M.cbrt (eval M op1).result.value ∧
      (∀ oper : OPER_TYPE, evalFuncNode M (.func oper ident op1 op2)
        = some (eval M (.func oper ident op1 op2))) ∧
      (∀ (a b : Double) (ta tb : NUM_TYPE),
        (eval M (.func .ADD_OPER ident (leaf ta a) (leaf tb b))).result.value
          = Double.add a b) ∧
      (eval M (.func .NEG_OPER ident (createNumberNode (.fin false 5 0) .INT_TYPE)
        op2)).result.value = .fin true 5 0 := by
  refine ⟨rfl, rfl, rfl, rfl, rfl, rfl, rfl, rfl, rfl, rfl, rfl, rfl, rfl, rfl, rfl, rfl,
    fun _ => rfl, fun _ _ _ _ => rfl, rfl⟩

/-- C4, at ADD(2.5, 0.25), both operands being binary64 values.  The magnitude is 2.75,
which fails the test `ceil(v) == v`, and `setNumType` sets the tag of its own copy to
`DOUBLE_TYPE`; the value `eval` returns keeps the tag `INT_TYPE` of its initialiser.
ADD(2, 3) has magnitude 5 and the same tag `INT_TYPE`. -/
theorem eval_add_fraction_tag :
    (eval MathLib.nanLib (.func .ADD_OPER none
        (createNumberNode (.fin false 5 (-1)) .DOUBLE_TYPE)
        (createNumberNode (.fin false 1 (-2)) .DOUBLE_TYPE))).result
        = { type := .INT_TYPE, value := .fin false 11 (-2) } ∧
      Double.isBinary64 (.fin false 5 (-1)) = true ∧
      Double.isBinary64 (.fin false 1 (-2)) = true ∧
      Double.eq (Double.ceil (.fin false 11 (-2))) (.fin false 11 (-2)) = false ∧
      (setNumType { type := .INT_TYPE, value := .fin false 11 (-2) }).type = .DOUBLE_TYPE ∧
      (eval MathLib.nanLib (.func .ADD_OPER none
        (createNumberNode (.fin false 2 0) .INT_TYPE)
        (createNumberNode (.fin false 3 0) .INT_TYPE))).result
        = { type := .INT_TYPE, value := .fin false 5 0 } := by
  decide

/-! ## The node builders -/

/-- C5. For a finite magnitude `v`, `createNumberNode(v, t)` builds a number leaf that
stores `v` unchanged, tagged `INT_TYPE` if `ceil(v) == v` and `DOUBLE_TYPE` otherwise. -/
theorem createNumberNode_tag (v : Double) (t : NUM_TYPE) (h : v.isFinite = true) :
    createNumberNode v t =
      .num { type := if Double.eq (Double.ceil v) v then .INT_TYPE else .DOUBLE_TYPE,
             value := v } := by
  simp only [createNumberNode, Double.round_eq_ceil_eq v h]

/-- C5, at 5.0 and -3.0 (tagged INTEGER) and at 2.5 and -0.25 (tagged FLOAT). -/
theorem createNumberNode_tag_witness :
    createNumberNode (.fin false 5 0) .DOUBLE_TYPE = leaf .INT_TYPE (.fin false 5 0) ∧
      createNumberNode (.fin true 3 0) .DOUBLE_TYPE = leaf .INT_TYPE (.fin true 3 0) ∧
      createNumberNode (.fin false 5 (-1)) .INT_TYPE = leaf .DOUBLE_TYPE (.fin false 5 (-1)) ∧
      createNumberNode (.fin true 1 (-2)) .INT_TYPE = leaf .DOUBLE_TYPE (.fin true 1 (-2)) :=
  ⟨(createNumberNode_tag (.fin false 5 0) .DOUBLE_TYPE rfl).trans (by decide),
    (createNumberNode_tag (.fin true 3 0) .DOUBLE_TYPE rfl).trans (by decide),
    (createNumberNode_tag (.fin false 5 (-1)) .INT_TYPE rfl).trans (by decide),
    (createNumberNode_tag (.fin true 1 (-2)) .INT_TYPE rfl).trans (by decide)⟩

/-- C6. Evaluating a number leaf returns the stored tag and magnitude as they are, also
when the tag disagrees with the classification of the magnitude, and writes nothing to
`stderr`; so `eval(createNumberNode(v, t))` has magnitude `v` and the tag the builder
stored in the leaf. -/
theorem eval_num_passthrough (M : MathLib) (type : NUM_TYPE) (value : Double) :
    eval M (leaf type value) = { result := { type := type, value := value }, stderr := [] } ∧
      evalNumNode (leaf type value)
        = some { result := { type := type, value := value }, stderr := [] } ∧
      (∀ t : NUM_TYPE, ∃ tag : NUM_TYPE,
        createNumberNode value t = leaf tag value ∧
          eval M (createNumberNode value t)
            = { result := { type := tag, value := value }, stderr := [] }) :=
  ⟨rfl, rfl, fun _ => ⟨_, rfl, rfl⟩⟩

/-- C8. `createFunctionNode(name, op1, op2)` returns a function-call node whose operation
is `resolveFunc(name)` and whose children are `op1` and `op2` as given, whatever they are
(absent ones included).  The node keeps the pointer `name` itself in `ident` exactly when
the operation is `CUSTOM_OPER`, and then nothing is freed; otherwise `ident` is null and
`name` is the one string handed to `free`. -/
theorem createFunctionNode_node (funcName : CString) (op1 op2 : AST_NODE) :
    (∃ ident : Option CString,
        (createFunctionNode funcName op1 op2).node
            = .func (resolveFunc funcName.chars) ident op1 op2 ∧
          (ident = some funcName ↔ resolveFunc funcName.chars = .CUSTOM_OPER) ∧
          (resolveFunc funcName.chars = .CUSTOM_OPER →
            (createFunctionNode funcName op1 op2).freed = []) ∧
          (resolveFunc funcName.chars ≠ .CUSTOM_OPER →
            ident = none ∧ (createFunctionNode funcName op1 op2).freed = [funcName])) ∧
      (∀ p : Nat, createFunctionNode ⟨p, "myFunc"⟩ op1 op2
        = { node := .func .CUSTOM_OPER (some ⟨p, "myFunc"⟩) op1 op2, freed := [] }) ∧
      (∀ p : Nat, createFunctionNode ⟨p, "add"⟩ op1 op2
        = { node := .func .ADD_OPER none op1 op2, freed := [⟨p, "add"⟩] }) := by
  refine ⟨?_, fun _ => rfl, fun _ => rfl⟩
  by_cases h : resolveFunc funcName.chars = .CUSTOM_OPER
  · exact ⟨some funcName, by simp [createFunctionNode, h], by simp [h],
      fun _ => by simp [createFunctionNode, h], fun hne => absurd h hne⟩
  · exact ⟨none, by simp [createFunctionNode, h], by simp [h],
      fun heq => absurd heq h, fun _ => ⟨rfl, by simp [createFunctionNode, h]⟩⟩

/-- C7. The node that `createFunctionNode` builds for a built-in name with a computed
operation evaluates to the operation of that name: "neg" to `-a`, "abs" to `|a|`, "exp" to
`exp(a)`, "sqrt" to `sqrt(a)`, "add" to `a + b`, and so on through "hypot", where `a` and
`b` are the magnitudes of the operands. -/
theorem name_table_lockstep (M : MathLib) (p : Nat) (op1 op2 : AST_NODE) :
    (eval M (createFunctionNode ⟨p, "neg"⟩ op1 op2).node).result.value
        = Double.neg (eval M op1).result.value ∧
      (eval M (createFunctionNode ⟨p, "abs"⟩ op1 op2).node).result.value
        = Double.fabs (eval M op1).result.value ∧
      (eval M (createFunctionNode ⟨p, "exp"⟩ op1 op2).node).result.value
        = M.exp (eval M op1).result.value ∧
      (eval M (createFunctionNode ⟨p, "sqrt"⟩ op1 op2).node).result.value
        = M.sqrt (eval M op1).result.value ∧
      (eval M (createFunctionNode ⟨p, "add"⟩ op1 op2).node).result.value
        = Double.add (eval M op1).result.value (eval M op2).result.value ∧
      (eval M (createFunctionNode ⟨p, "sub"⟩ op1 op2).node).result.value
        = Double.sub (eval M op1).result.value (eval M op2).result.value ∧
      (eval M (createFunctionNode ⟨p, "mult"⟩ op1 op2).node).result.value
        = Double.mul (eval M op1).result.value (eval M op2).result.value ∧
      (eval M (createFunctionNode ⟨p, "div"⟩ op1 op2).node).result.value
        = Double.div (eval M op1).result.value (eval M op2).result.value ∧
      (eval M (createFunctionNode ⟨p, "remainder"⟩ op1 op2).node).result.value
        = Double.fmod (eval M op1).result.value (eval M op2).result.value ∧
      (eval M (createFunctionNode ⟨p, "log"⟩ op1 op2).node).result.value
        = M.log (eval M op1).result.value ∧
      (eval M (createFunctionNode ⟨p, "pow"⟩ op1 op2).node).result.value
        = M.pow (eval M op1).result.value (eval M op2).result.value ∧
      (eval M (createFunctionNode ⟨p, "max"⟩ op1 op2).node).result.value
        = Double.fmax (eval M op1).result.value (eval M op2).result.value ∧
      (eval M (createFunctionNode ⟨p, "min"⟩ op1 op2).node).result.value
        = Double.fmin (eval M op1).result.value (eval M op2).result.value ∧
      (eval M (createFunctionNode ⟨p, "exp2"⟩ op1 op2).node).result.value
        = M.exp2 (eval M op1).result.value ∧
      (eval M (createFunctionNode ⟨p, "cbrt"⟩ op1 op2).node).result.value
        = M.cbrt (eval M op1).result.value ∧
      (eval M (createFunctionNode ⟨p, "hypot"⟩ op1 op2).node).result.value
        = M.hypot (eval M op1).result.value (eval M op2).result.value := by
  refine ⟨rfl, rfl, rfl, rfl, rfl, rfl, rfl, rfl, rfl, rfl, rfl, rfl, rfl, rfl, rfl, rfl⟩

/-! ## Absent nodes -/

/-- C9. `eval` of an absent node returns the sentinel, tag `INT_TYPE` with a NaN magnitude,
and writes nothing to `stderr`; `evalNumNode` and `evalFuncNode` return the same on an
absent node. -/
theorem eval_null (M : MathLib) :
    eval M .null = { result := { type := .INT_TYPE, value := .nan }, stderr := [] } ∧
      evalNumNode .null
        = some { result := { type := .INT_TYPE, value := .nan }, stderr := [] } ∧
      evalFuncNode M .null
        = some { result := { type := .INT_TYPE, value := .nan }, stderr := [] } ∧
      (eval M .null).result.value.isNaN = true :=
  ⟨rfl, rfl, rfl, rfl⟩

/-- C10 fails at MAX(1, absent): the second operand of the binary operation MAX is absent
and the magnitude returned is 1, not NaN, because `fmax` returns its other argument when
one argument is NaN.  The same holds for MIN and for the absent operand in first place. -/
theorem eval_max_absent_operand :
    (eval MathLib.nanLib (.func .MAX_OPER none
        (createNumberNode (.fin false 1 0) .INT_TYPE) .null)).result.value = .fin false 1 0 ∧
      (eval MathLib.nanLib (.func .MAX_OPER none
        (createNumberNode (.fin false 1 0) .INT_TYPE) .null)).result.value.isNaN = false ∧
      (eval MathLib.nanLib (.func .MIN_OPER none .null
        (createNumberNode (.fin false 1 0) .INT_TYPE))).result.value.isNaN = false := by
  decide

/-- C10, amended.  With a required child absent, `eval` writes nothing for that child and,
for every math library and whatever the other operand `x` evaluates to, returns a NaN
magnitude for NEG, ABS, ADD, SUB, MULT, DIV and REMAINDER.  For MAX and MIN it returns the
magnitude of the other operand.  For SQRT, EXP, LOG, EXP2, CBRT, POW and HYPOT it returns
what the library returns on the NaN argument, which for the five one-argument functions is
NaN under a library that maps NaN to NaN. -/
theorem eval_absent_operand (M : MathLib) (ident : Option CString) (x : AST_NODE) :
    (∀ oper ∈ [OPER_TYPE.NEG_OPER, .ABS_OPER],
        (eval M (.func oper ident .null x)).result.value = .nan ∧
          (eval M (.func oper ident .null x)).stderr = []) ∧
      (∀ oper ∈ [OPER_TYPE.ADD_OPER, .SUB_OPER, .MULT_OPER, .DIV_OPER, .REMAINDER_OPER],
        (eval M (.func oper ident .null x)).result.value = .nan ∧
          (eval M (.func oper ident x .null)).result.value = .nan) ∧
      (∀ oper ∈ [OPER_TYPE.MAX_OPER, .MIN_OPER],
        (eval M (.func oper ident .null x)).result.value = (eval M x).result.value ∧
          (eval M (.func oper ident x .null)).result.value = (eval M x).result.value) ∧
      (eval M (.func .POW_OPER ident .null x)).result.value
        = M.pow .nan (eval M x).result.value ∧
      (eval M (.func .POW_OPER ident x .null)).result.value
        = M.pow (eval M x).result.value .nan ∧
      (eval M (.func .HYPOT_OPER ident .null x)).result.value
        = M.hypot .nan (eval M x).result.value ∧
      (eval M (.func .HYPOT_OPER ident x .null)).result.value
        = M.hypot (eval M x).result.value .nan ∧
      (∀ oper ∈ [OPER_TYPE.ADD_OPER, .SUB_OPER, .MULT_OPER, .DIV_OPER, .REMAINDER_OPER,
        .MAX_OPER, .MIN_OPER, .POW_OPER, .HYPOT_OPER],
        (eval M (.func oper ident .null x)).stderr = (eval M x).stderr ∧
          (eval M (.func oper ident x .null)).stderr = (eval M x).stderr) ∧
      (eval M (.func .SQRT_OPER ident .null x)).result.value = M.sqrt .nan ∧
      (eval M (.func .EXP_OPER ident .null x)).result.value = M.exp .nan ∧
      (eval M (.func .LOG_OPER ident .null x)).result.value = M.log .nan ∧
      (eval M (.func .EXP2_OPER ident .null x)).result.value = M.exp2 .nan ∧
      (eval M (.func .CBRT_OPER ident .null x)).result.value = M.cbrt .nan ∧
      (∀ oper ∈ [OPER_TYPE.SQRT_OPER, .EXP_OPER, .LOG_OPER, .EXP2_OPER, .CBRT_OPER],
        (eval M (.func oper ident .null x)).stderr = []) ∧
      (M.PropagatesNaN →
        ∀ oper ∈ [OPER_TYPE.SQRT_OPER, .EXP_OPER, .LOG_OPER, .EXP2_OPER, .CBRT_OPER],
          (eval M (.func oper ident .null x)).result.value = .nan) := by
  refine ⟨?_, ?_, ?_, rfl, rfl, rfl, rfl, ?_, rfl, rfl, rfl, rfl, rfl, ?_, ?_⟩
  · intro oper h
    simp only [List.mem_cons, List.mem_singleton, List.not_mem_nil, or_false] at h
    rcases h with rfl | rfl <;>
      simp [eval, evalFuncSwitch, sentinel, Double.neg, Double.fabs]
  · intro oper h
    simp only [List.mem_cons, List.mem_singleton, List.not_mem_nil, or_false] at h
    rcases h with rfl | rfl | rfl | rfl | rfl <;>
      simp [eval, evalFuncSwitch, sentinel, Double.add_nan_left, Double.add_nan_right,
        Double.sub_nan_left, Double.sub_nan_right, Double.mul_nan_left,
        Double.mul_nan_right, Double.div_nan_left, Double.div_nan_right,
        Double.fmod_nan_left, Double.fmod_nan_right]
  · intro oper h
    simp only [List.mem_cons, List.mem_singleton, List.not_mem_nil, or_false] at h
    rcases h with rfl | rfl <;>
      simp [eval, evalFuncSwitch, sentinel, Double.fmax_nan_left, Double.fmax_nan_right,
        Double.fmin_nan_left, Double.fmin_nan_right]
  · intro oper h
    simp only [List.mem_cons, List.mem_singleton, List.not_mem_nil, or_false] at h
    rcases h with rfl | rfl | rfl | rfl | rfl | rfl | rfl | rfl | rfl <;>
      simp [eval, evalFuncSwitch, sentinel]
  · intro oper h
    simp only [List.mem_cons, List.mem_singleton, List.not_mem_nil, or_false] at h
    rcases h with rfl | rfl | rfl | rfl | rfl <;>
      simp [eval, evalFuncSwitch, sentinel]
  · rintro ⟨hsqrt, hexp, hlog, hexp2, hcbrt⟩ oper h
    simp only [List.mem_cons, List.mem_singleton, List.not_mem_nil, or_false] at h
    rcases h with rfl | rfl | rfl | rfl | rfl <;>
      simp [eval, evalFuncSwitch, sentinel, hsqrt, hexp, hlog, hexp2, hcbrt]

/-- C10 amended, at the library `annexF`, which maps NaN to NaN without being NaN
everywhere, with the other operand a leaf: ADD, DIV and NEG of an absent operand are NaN,
so are SQRT and LOG, MAX(1, absent) is 1, and POW(absent, 0) is the 1 that `pow` returns
for a zero exponent. -/
theorem eval_absent_operand_witness :
    MathLib.annexF.PropagatesNaN ∧
      MathLib.annexF.exp (.fin false 0 0) = .fin false 1 0 ∧
      (eval MathLib.annexF (.func .ADD_OPER none .null
        (createNumberNode (.fin false 1 0) .INT_TYPE))).result.value = .nan ∧
      (eval MathLib.annexF (.func .DIV_OPER none
        (createNumberNode (.fin false 1 0) .INT_TYPE) .null)).result.value = .nan ∧
      (eval MathLib.annexF (.func .NEG_OPER none .null
        (createNumberNode (.fin false 1 0) .INT_TYPE))).result.value = .nan ∧
      (eval MathLib.annexF (.func .SQRT_OPER none .null
        (createNumberNode (.fin false 1 0) .INT_TYPE))).result.value = .nan ∧
      (eval MathLib.annexF (.func .LOG_OPER none .null
        (createNumberNode (.fin false 1 0) .INT_TYPE))).result.value = .nan ∧
      (eval MathLib.annexF (.func .MAX_OPER none
        (createNumberNode (.fin false 1 0) .INT_TYPE) .null)).result.value = .fin false 1 0 ∧
      (eval MathLib.annexF (.func .POW_OPER none .null
        (createNumberNode (.fin false 0 0) .INT_TYPE))).result.value = .fin false 1 0 :=
  have hM : MathLib.annexF.PropagatesNaN := ⟨rfl, rfl, rfl, rfl, rfl⟩
  have h := eval_absent_operand MathLib.annexF none
    (createNumberNode (.fin false 1 0) .INT_TYPE)
  have h0 := eval_absent_operand MathLib.annexF none
    (createNumberNode (.fin false 0 0) .INT_TYPE)
  ⟨hM, rfl, (h.2.1 .ADD_OPER (by decide)).1, (h.2.1 .DIV_OPER (by decide)).2,
    (h.1 .NEG_OPER (by decide)).1,
    h.2.2.2.2.2.2.2.2.2.2.2.2.2.2 hM .SQRT_OPER (by decide),
    h.2.2.2.2.2.2.2.2.2.2.2.2.2.2 hM .LOG_OPER (by decide),
    (h.2.2.1 .MAX_OPER (by decide)).2,
    h0.2.2.2.1.trans (by decide)⟩

/-! ## Division by zero -/

/-- C11 fails at DIV(1, 0) in its tag: the tag `eval` returns is not `DOUBLE_TYPE`. -/
theorem eval_div_zero_tag :
    (eval MathLib.nanLib (.func .DIV_OPER none
        (createNumberNode (.fin false 1 0) .INT_TYPE)
        (createNumberNode (.fin false 0 0) .INT_TYPE))).result.type ≠ .DOUBLE_TYPE := by
  decide

/-- C11, amended.  DIV over leaves 1 and 0 writes nothing to `stderr` and returns positive
infinity with the tag `INT_TYPE`; infinity passes the test `ceil(v) == v`, so the rule of
`setNumType` gives `INT_TYPE` for it as well, whatever tag it starts from. -/
theorem eval_div_zero :
    eval MathLib.nanLib (.func .DIV_OPER none
        (createNumberNode (.fin false 1 0) .INT_TYPE)
        (createNumberNode (.fin false 0 0) .INT_TYPE))
        = { result := { type := .INT_TYPE, value := .inf false }, stderr := [] } ∧
      Double.eq (Double.ceil (.inf false)) (.inf false) = true ∧
      (setNumType { type := .INT_TYPE, value := .inf false }).type = .INT_TYPE ∧
      (setNumType { type := .DOUBLE_TYPE, value := .inf false }).type = .INT_TYPE := by
  decide

/-! ## The two classification tests -/

/-- C13. On a finite double the test `round(v) == v` of `createNumberNode` holds if and
only if the test `ceil(v) == v` of `setNumType` holds. -/
theorem round_test_iff_ceil_test (v : Double) (h : v.isFinite = true) :
    Double.eq (Double.round v) v = true ↔ Double.eq (Double.ceil v) v = true := by
  rw [Double.round_eq_ceil_eq v h]

/-- C13, at 5.0, where both tests hold, and at 2.5 and -2.5, where both fail. -/
theorem round_test_iff_ceil_test_witness :
    (Double.eq (Double.round (.fin false 5 0)) (.fin false 5 0) = true ∧
        Double.eq (Double.ceil (.fin false 5 0)) (.fin false 5 0) = true) ∧
      (Double.eq (Double.round (.fin false 5 (-1))) (.fin false 5 (-1)) = false ∧
        Double.eq (Double.ceil (.fin false 5 (-1))) (.fin false 5 (-1)) = false) ∧
      (Double.eq (Double.round (.fin true 5 (-1))) (.fin true 5 (-1)) = false ∧
        Double.eq (Double.ceil (.fin true 5 (-1))) (.fin true 5 (-1)) = false) :=
  ⟨⟨by decide, (round_test_iff_ceil_test (.fin false 5 0) rfl).mp (by decide)⟩,
    ⟨by decide, Bool.eq_false_iff.mpr fun hc =>
      absurd ((round_test_iff_ceil_test (.fin false 5 (-1)) rfl).mpr hc) (by decide)⟩,
    ⟨by decide, Bool.eq_false_iff.mpr fun hc =>
      absurd ((round_test_iff_ceil_test (.fin true 5 (-1)) rfl).mpr hc) (by decide)⟩⟩

/-! ## Malformed nodes and placeholders -/

/-- C15. On a node whose type tag is neither of the two tags, `eval` writes the one text of
`yyerror` to `stderr` and returns tag `INT_TYPE` with a NaN magnitude, whatever lies in the
union of the node: nothing below the node is evaluated, so malformed nodes found there add
no text of their own. -/
theorem eval_invalid (M : MathLib) (op1 op2 : AST_NODE) :
    eval M (.invalid op1 op2)
        = { result := { type := .INT_TYPE, value := .nan },
            stderr := ["\nERROR: Invalid AST_NODE_TYPE, probably invalid writes somewhere!\n"] } ∧
      (eval M (.invalid op1 op2)).result.value.isNaN = true ∧
      (eval M (.invalid op1 op2)).stderr.length = 1 ∧
      eval M (.invalid op1 op2) = eval M (.invalid .null .null) :=
  ⟨by simp [eval, yyerror], rfl, rfl, rfl⟩

/-- C16. A function call whose operation is a placeholder evaluates to tag `INT_TYPE` with
a NaN magnitude and writes nothing to `stderr`, for every name and every pair of operands:
the operands are not evaluated, not even malformed ones, which would write to `stderr`. -/
theorem eval_placeholder (M : MathLib) (ident : Option CString) (op1 op2 : AST_NODE) :
    (∀ oper ∈ [OPER_TYPE.READ_OPER, .RAND_OPER, .PRINT_OPER, .EQUAL_OPER, .LESS_OPER,
        .GREATER_OPER, .CUSTOM_OPER],
        eval M (.func oper ident op1 op2)
            = { result := { type := .INT_TYPE, value := .nan }, stderr := [] } ∧
          eval M (.func oper ident op1 op2) = eval M (.func oper none .null .null) ∧
          eval M (.func oper ident (.invalid op1 op2) (.invalid op2 op1))
            = { result := { type := .INT_TYPE, value := .nan }, stderr := [] }) := by
  intro oper h
  simp only [List.mem_cons, List.mem_singleton, List.not_mem_nil, or_false] at h
  rcases h with rfl | rfl | rfl | rfl | rfl | rfl | rfl <;> exact ⟨rfl, rfl, rfl⟩

/-- C16, at READ over two leaves and at CUSTOM with a name over a malformed operand. -/
theorem eval_placeholder_witness :
    eval MathLib.nanLib (.func .READ_OPER none (leaf .INT_TYPE (.fin false 1 0))
        (leaf .DOUBLE_TYPE (.fin false 5 (-1))))
        = { result := { type := .INT_TYPE, value := .nan }, stderr := [] } ∧
      eval MathLib.nanLib (.func .CUSTOM_OPER (some ⟨103, "myFunc"⟩)
        (.invalid .null .null) .null)
        = { result := { type := .INT_TYPE, value := .nan }, stderr := [] } :=
  ⟨(eval_placeholder MathLib.nanLib none (leaf .INT_TYPE (.fin false 1 0))
      (leaf .DOUBLE_TYPE (.fin false 5 (-1))) .READ_OPER (by decide)).1,
    (eval_placeholder MathLib.nanLib (some ⟨103, "myFunc"⟩) (.invalid .null .null) .null
      .CUSTOM_OPER (by decide)).1⟩

/-! ## Tags -/

/-- C17. `setNumType` works on its own copy, so the tag of a function call is the
`INT_TYPE` of the initialiser for every operation and all operands, whatever the magnitude:
fractional (ADD(2.5, 0.25) = 2.75), infinite (DIV(1, 0)) or NaN (ADD of an absent operand).
`eval` returns the tag `DOUBLE_TYPE` only on a number leaf that holds that tag. -/
theorem eval_func_tag (M : MathLib) (oper : OPER_TYPE) (ident : Option CString)
    (op1 op2 : AST_NODE) :
    (eval M (.func oper ident op1 op2)).result.type = .INT_TYPE ∧
      (∀ r1 r2 : Outcome, (evalFuncSwitch M oper r1 r2).result.type = .INT_TYPE) ∧
      (∀ node : AST_NODE, (eval M node).result.type = .DOUBLE_TYPE →
        ∃ value : Double, node = leaf .DOUBLE_TYPE value) ∧
      (eval MathLib.nanLib (.func .ADD_OPER none (leaf .DOUBLE_TYPE (.fin false 5 (-1)))
        (leaf .DOUBLE_TYPE (.fin false 1 (-2))))).result
        = { type := .INT_TYPE, value := .fin false 11 (-2) } ∧
      (eval MathLib.nanLib (.func .DIV_OPER none (leaf .INT_TYPE (.fin false 1 0))
        (leaf .INT_TYPE (.fin false 0 0)))).result
        = { type := .INT_TYPE, value := .inf false } ∧
      (eval MathLib.nanLib (.func .ADD_OPER none .null
        (leaf .DOUBLE_TYPE (.fin false 1 (-2))))).result
        = { type := .INT_TYPE, value := .nan } := by
  have hsw : ∀ (o : OPER_TYPE) (r1 r2 : Outcome),
      (evalFuncSwitch M o r1 r2).result.type = .INT_TYPE := by
    intro o r1 r2
    cases o <;> rfl
  refine ⟨hsw _ _ _, hsw oper, ?_, by decide, by decide, by decide⟩
  intro node hnode
  cases node with
  | null => simp [eval, sentinel] at hnode
  | num number =>
    refine ⟨number.value, ?_⟩
    have ht : number.type = .DOUBLE_TYPE := hnode
    cases number with
    | mk t v => simp only at ht; subst ht; rfl
  | func o i a b =>
    have ht : (evalFuncSwitch M o (eval M a) (eval M b)).result.type = .DOUBLE_TYPE := hnode
    rw [hsw] at ht
    cases ht
  | invalid a b => simp [eval] at hnode

/-- C18. `createNumberNode` does not read its `type` argument: the leaves it builds for a
value with `INT_TYPE` and with `DOUBLE_TYPE` are the same, and a whole value announced as a
double, such as 5.0, is tagged `INT_TYPE`. -/
theorem createNumberNode_ignores_type (v : Double) :
    createNumberNode v .INT_TYPE = createNumberNode v .DOUBLE_TYPE ∧
      (∀ t1 t2 : NUM_TYPE, createNumberNode v t1 = createNumberNode v t2) ∧
      createNumberNode (.fin false 5 0) .DOUBLE_TYPE = leaf .INT_TYPE (.fin false 5 0) :=
  ⟨rfl, fun _ _ => rfl, by decide⟩

/-! ## The scan of the name table -/

/-- The loop of `resolveFunc` over any table, entered with counter `i`: it ends at the first
entry that is the string or is empty, whichever comes first, and leaves the table only when
no entry is empty. -/
theorem resolveFuncLoop_spec (funcName : String) (table : List String) (i : Nat) :
    (∃ k, k < table.length ∧ resolveFuncLoop funcName table i = .found (i + k) ∧
        table.get? k = some funcName ∧ funcName ≠ "" ∧
        ∀ j, j < k → table.get? j ≠ some funcName ∧ table.get? j ≠ some "") ∨
      (∃ k, k < table.length ∧ resolveFuncLoop funcName table i = .sentinel (i + k) ∧
        table.get? k = some "" ∧
        ∀ j, j < k → table.get? j ≠ some funcName ∧ table.get? j ≠ some "") ∨
      (resolveFuncLoop funcName table i = .overrun (i + table.length) ∧ "" ∉ table) := by
  induction table generalizing i with
  | nil => right; right; simp [resolveFuncLoop]
  | cons entry rest ih =>
    by_cases h1 : entry = ""
    · right; left
      refine ⟨0, by simp, by simp [resolveFuncLoop, h1], by simp [h1], ?_⟩
      intro j hj; omega
    · by_cases h2 : entry = funcName
      · left
        subst h2
        refine ⟨0, by simp, by simp [resolveFuncLoop, h1], by simp, h1, ?_⟩
        intro j hj; omega
      · have hstep : resolveFuncLoop funcName (entry :: rest) i
            = resolveFuncLoop funcName rest (i + 1) := by
          simp [resolveFuncLoop, h1, h2]
        rcases ih (i + 1) with ⟨k, hk, hr, hg, hne, hb⟩ | ⟨k, hk, hr, hg, hb⟩ | ⟨hr, hn⟩
        · left
          refine ⟨k + 1, by simp; omega, ?_, by simpa using hg, hne, ?_⟩
          · rw [hstep, hr]; congr 1; omega
          · intro j hj
            cases j with
            | zero => simp [h1, h2]
            | succ j => simpa using hb j (by omega)
        · right; left
          refine ⟨k + 1, by simp; omega, ?_, by simpa using hg, ?_⟩
          · rw [hstep, hr]; congr 1; omega
          · intro j hj
            cases j with
            | zero => simp [h1, h2]
            | succ j => simpa using hb j (by omega)
        · right; right
          refine ⟨?_, ?_⟩
          · rw [hstep, hr]; congr 1; simp; omega
          · simp [hn, Ne.symm h1]

/-- C14. For every string the scan of `resolveFunc` ends at an index of the table, at most
22, the position of the sentinel: it never reads `funcNames[i]` beyond the last entry.  It
ends at `return i;` exactly when `i < 22` is the first index whose entry is the string, so
a string among the 22 names is always returned at its first matching entry; it ends at the
sentinel, and then at index 22, exactly when none of the 22 entries before it is the
string. -/
theorem resolveFuncScan_in_table (funcName : String) :
    (∃ i, i ≤ 22 ∧ i < funcNames.length ∧
        (resolveFuncScan funcName = .found i ∨ resolveFuncScan funcName = .sentinel i)) ∧
      (∀ i, resolveFuncScan funcName ≠ .overrun i) ∧
      (∀ i, resolveFuncScan funcName = .found i ↔
        (i < 22 ∧ funcNames.get? i = some funcName ∧
          ∀ j, j < i → funcNames.get? j ≠ some funcName)) ∧
      (∀ i, resolveFuncScan funcName = .sentinel i ↔
        (i = 22 ∧ ∀ j, j < 22 → funcNames.get? j ≠ some funcName)) ∧
      (∀ j, j < 22 → funcNames.get? j = some funcName →
        ∃ i, i ≤ j ∧ resolveFuncScan funcName = .found i ∧
          funcNames.get? i = some funcName) ∧
      funcNames.get? 22 = some "" := by
  have hlen : funcNames.length = 23 := rfl
  have hsent : ∀ k, k < 23 → funcNames.get? k = some "" → k = 22 := by
    intro k hk hg
    interval_cases k <;> first | rfl | (exact absurd hg (by decide))
  have hmem : "" ∈ funcNames := by decide
  unfold resolveFuncScan
  rcases resolveFuncLoop_spec funcName funcNames 0 with
    ⟨k, hk, hr, hg, hne, hb⟩ | ⟨k, hk, hr, hg, hb⟩ | ⟨_, hn⟩
  · rw [hlen] at hk
    rw [Nat.zero_add] at hr
    have hk22 : k < 22 := by
      rcases Nat.lt_or_ge k 22 with h | h
      · exact h
      · have hk_eq : k = 22 := by omega
        subst hk_eq
        have : funcName = "" := by
          have h22 : funcNames.get? 22 = some "" := rfl
          rw [h22] at hg
          exact (Option.some.inj hg).symm
        exact absurd this hne
    refine ⟨⟨k, by omega, by omega, Or.inl hr⟩, ?_, ?_, ?_, ?_, rfl⟩
    · intro i hi; rw [hr] at hi; cases hi
    · intro i
      constructor
      · intro hi
        rw [hr] at hi
        cases hi
        exact ⟨hk22, hg, fun j hj => (hb j hj).1⟩
      · rintro ⟨_, hgi, hbi⟩
        have hik : i = k := by
          rcases Nat.lt_trichotomy i k with h | h | h
          · exact absurd hgi (hb i h).1
          · exact h
          · exact absurd hg (hbi k h)
        rw [hr, hik]
    · intro i
      constructor
      · intro hi; rw [hr] at hi; cases hi
      · rintro ⟨_, hall⟩
        exact absurd hg (hall k hk22)
    · intro j hj hgj
      refine ⟨k, ?_, hr, hg⟩
      rcases Nat.lt_or_ge j k with h | h
      · exact absurd hgj (hb j h).1
      · exact h
  · rw [hlen] at hk
    rw [Nat.zero_add] at hr
    have hk22 : k = 22 := hsent k hk hg
    subst hk22
    refine ⟨⟨22, by omega, by omega, Or.inr hr⟩, ?_, ?_, ?_, ?_, rfl⟩
    · intro i hi; rw [hr] at hi; cases hi
    · intro i
      constructor
      · intro hi; rw [hr] at hi; cases hi
      · rintro ⟨hi, hgi, _⟩
        exact absurd hgi (hb i hi).1
    · intro i
      constructor
      · intro hi
        rw [hr] at hi
        cases hi
        exact ⟨rfl, fun j hj => (hb j hj).1⟩
      · rintro ⟨hi, _⟩
        rw [hr, hi]
    · intro j hj hgj
      exact absurd hgj (hb j hj).1
  · exact absurd hmem hn

/-- C14, at "add", which is entry 4 and no earlier entry, and at "adds", which is no entry:
the scan returns at index 4 for the one and runs to the sentinel at index 22 for the
other. -/
theorem resolveFuncScan_in_table_witness :
    resolveFuncScan "add" = .found 4 ∧ resolveFuncScan "adds" = .sentinel 22 ∧
      resolveFuncScan "greater" = .found 21 ∧ resolveFuncScan "" = .sentinel 22 :=
  ⟨((resolveFuncScan_in_table "add").2.2.1 4).mpr (by decide),
    ((resolveFuncScan_in_table "adds").2.2.2.1 22).mpr (by decide),
    ((resolveFuncScan_in_table "greater").2.2.1 21).mpr (by decide),
    ((resolveFuncScan_in_table "").2.2.2.1 22).mpr (by decide)⟩

/-! ## Releasing a tree -/

theorem nodeAt_null (r : Path) : nodeAt .null r = .null := by
  cases r <;> rfl

theorem nodeAt_num_cons (x : RET_VAL) (d : Step) (r : Path) : nodeAt (.num x) (d :: r) = .null := by
  cases d <;> rfl

theorem nodeAt_invalid_cons (a b : AST_NODE) (d : Step) (r : Path) :
    nodeAt (.invalid a b) (d :: r) = .null := by
  cases d <;> rfl

/-- Every call of `free` that `freeNode` makes from a place is for a node at or below it. -/
theorem freeNode_place (n : AST_NODE) :
    ∀ (p : Path) (x : Release), x ∈ freeNode n p → ∃ r, x.place = p ++ r := by
  induction n with
  | null => intro p x hx; simp [freeNode] at hx
  | num number =>
    intro p x hx
    simp [freeNode] at hx
    subst hx
    exact ⟨[], by simp [Release.place]⟩
  | invalid a b _ _ =>
    intro p x hx
    simp [freeNode] at hx
    subst hx
    exact ⟨[], by simp [Release.place]⟩
  | func oper ident a b iha ihb =>
    intro p x hx
    simp only [freeNode, List.mem_append, List.mem_singleton] at hx
    rcases hx with ((hx | hx) | hx) | hx
    · obtain ⟨r, hr⟩ := iha _ x hx
      exact ⟨.op1 :: r, by simp [hr]⟩
    · obtain ⟨r, hr⟩ := ihb _ x hx
      exact ⟨.op2 :: r, by simp [hr]⟩
    · split at hx
      · cases ident with
        | none => simp at hx
        | some s =>
          simp at hx
          subst hx
          exact ⟨[], by simp [Release.place]⟩
      · simp at hx
    · subst hx
      exact ⟨[], by simp [Release.place]⟩

/-- The name freed at a function-call node, if any, is no call `free(node)`. -/
theorem node_not_mem_names (oper : OPER_TYPE) (ident : Option CString) (p q : Path) :
    Release.node q ∉ (if oper = .CUSTOM_OPER then
      (match ident with
        | some s => [Release.name p s]
        | none => [])
      else []) := by
  split
  · cases ident <;> simp
  · simp

theorem name_mem_names (oper : OPER_TYPE) (ident : Option CString) (p q : Path) (s : CString) :
    Release.name q s ∈ (if oper = .CUSTOM_OPER then
      (match ident with
        | some t => [Release.name p t]
        | none => [])
      else []) ↔ q = p ∧ oper = .CUSTOM_OPER ∧ ident = some s := by
  split
  · rename_i h
    cases ident with
    | none => simp
    | some t =>
      simp only [List.mem_singleton, Release.name.injEq, h, true_and, Option.some.injEq]
      constructor
      · rintro ⟨h1, h2⟩; exact ⟨h1, h2.symm⟩
      · rintro ⟨h1, h2⟩; exact ⟨h1, h2.symm⟩
  · rename_i h
    simp [h]

/-- The calls `free(node)` that `freeNode` makes from a place are those for the nodes of
the tree below that place. -/
theorem freeNode_node_mem (n : AST_NODE) :
    ∀ (p q : Path), Release.node q ∈ freeNode n p ↔ ∃ r, q = p ++ r ∧ nodeAt n r ≠ .null := by
  induction n with
  | null =>
    intro p q
    simp [freeNode, nodeAt_null]
  | num number =>
    intro p q
    simp only [freeNode, List.mem_singleton, Release.node.injEq]
    constructor
    · intro h; exact ⟨[], by simp [h], by simp [nodeAt]⟩
    · rintro ⟨r, hq, hr⟩
      cases r with
      | nil => simpa using hq
      | cons d r => exact absurd (nodeAt_num_cons _ d r) hr
  | invalid a b _ _ =>
    intro p q
    simp only [freeNode, List.mem_singleton, Release.node.injEq]
    constructor
    · intro h; exact ⟨[], by simp [h], by simp [nodeAt]⟩
    · rintro ⟨r, hq, hr⟩
      cases r with
      | nil => simpa using hq
      | cons d r => exact absurd (nodeAt_invalid_cons _ _ d r) hr
  | func oper ident a b iha ihb =>
    intro p q
    simp only [freeNode, List.mem_append, List.mem_singleton, iha, ihb, Release.node.injEq]
    constructor
    · rintro (((⟨r, hq, hr⟩ | ⟨r, hq, hr⟩) | h) | h)
      · exact ⟨.op1 :: r, by simp [hq], by simpa [nodeAt] using hr⟩
      · exact ⟨.op2 :: r, by simp [hq], by simpa [nodeAt] using hr⟩
      · exact absurd h (node_not_mem_names oper ident p q)
      · exact ⟨[], by simp [h], by simp [nodeAt]⟩
    · rintro ⟨r, hq, hr⟩
      cases r with
      | nil => right; simpa using hq
      | cons d r =>
        cases d with
        | op1 => left; left; left; exact ⟨r, by simp [hq], by simpa [nodeAt] using hr⟩
        | op2 => left; left; right; exact ⟨r, by simp [hq], by simpa [nodeAt] using hr⟩

/-- The calls `free(ident)` that `freeNode` makes from a place are those for the names of
the `CUSTOM_OPER` nodes of the tree below that place. -/
theorem freeNode_name_mem (n : AST_NODE) :
    ∀ (p q : Path) (s : CString), Release.name q s ∈ freeNode n p ↔
      ∃ r, q = p ++ r ∧ ∃ a b, nodeAt n r = .func .CUSTOM_OPER (some s) a b := by
  induction n with
  | null =>
    intro p q s
    simp [freeNode, nodeAt_null]
  | num number =>
    intro p q s
    simp only [freeNode, List.mem_singleton]
    constructor
    · intro h; cases h
    · rintro ⟨r, _, a, b, hr⟩
      cases r with
      | nil => simp [nodeAt] at hr
      | cons d r => rw [nodeAt_num_cons] at hr; cases hr
  | invalid a b _ _ =>
    intro p q s
    simp only [freeNode, List.mem_singleton]
    constructor
    · intro h; cases h
    · rintro ⟨r, _, a, b, hr⟩
      cases r with
      | nil => simp [nodeAt] at hr
      | cons d r => rw [nodeAt_invalid_cons] at hr; cases hr
  | func oper ident a b iha ihb =>
    intro p q s
    simp only [freeNode, List.mem_append, List.mem_singleton, iha, ihb, name_mem_names]
    constructor
    · rintro (((⟨r, hq, hr⟩ | ⟨r, hq, hr⟩) | ⟨hq, ho, hi⟩) | h)
      · exact ⟨.op1 :: r, by simp [hq], by simpa [nodeAt] using hr⟩
      · exact ⟨.op2 :: r, by simp [hq], by simpa [nodeAt] using hr⟩
      · exact ⟨[], by simp [hq], a, b, by simp [nodeAt, ho, hi]⟩
      · cases h
    · rintro ⟨r, hq, x, y, hr⟩
      cases r with
      | nil =>
        left; right
        simp only [nodeAt, AST_NODE.func.injEq] at hr
        exact ⟨by simpa using hq, hr.1, hr.2.1⟩
      | cons d r =>
        cases d with
        | op1 => left; left; left; exact ⟨r, by simp [hq], x, y, by simpa [nodeAt] using hr⟩
        | op2 => left; left; right; exact ⟨r, by simp [hq], x, y, by simpa [nodeAt] using hr⟩

theorem freeNode_place_below (n : AST_NODE) (p : Path) (d : Step) (x : Release)
    (hx : x ∈ freeNode n (p ++ [d])) : x.place ≠ p := by
  obtain ⟨r, hr⟩ := freeNode_place n _ x hx
  intro h
  have hlen := congrArg List.length (hr.symm.trans h)
  simp at hlen

/-- No call of `free` is made twice by `freeNode`. -/
theorem freeNode_nodup (n : AST_NODE) : ∀ p : Path, (freeNode n p).Nodup := by
  induction n with
  | null => intro p; simp [freeNode]
  | num number => intro p; simp [freeNode]
  | invalid a b _ _ => intro p; simp [freeNode]
  | func oper ident a b iha ihb =>
    intro p
    have hnames : (if oper = .CUSTOM_OPER then
        (match ident with
          | some s => [Release.name p s]
          | none => [])
        else []).Nodup := by
      split
      · cases ident <;> simp
      · simp
    have hnames_place : ∀ x ∈ (if oper = .CUSTOM_OPER then
        (match ident with
          | some s => [Release.name p s]
          | none => [])
        else []), x.place = p := by
      intro x hx
      split at hx
      · cases ident with
        | none => simp at hx
        | some s => simp at hx; subst hx; rfl
      · simp at hx
    simp only [freeNode]
    refine List.Nodup.append (List.Nodup.append (List.Nodup.append (iha _) (ihb _) ?_)
      hnames ?_) (List.nodup_singleton _) ?_
    · intro x hxa hxb
      obtain ⟨r, hr⟩ := freeNode_place a _ x hxa
      obtain ⟨t, ht⟩ := freeNode_place b _ x hxb
      rw [hr, List.append_assoc, List.append_assoc] at ht
      have := List.append_cancel_left ht
      simp at this
    · intro x hx hxn
      rcases List.mem_append.mp hx with h | h
      · exact freeNode_place_below a p .op1 x h (hnames_place x hxn)
      · exact freeNode_place_below b p .op2 x h (hnames_place x hxn)
    · intro x hx hxp
      rw [List.mem_singleton] at hxp
      subst hxp
      rcases List.mem_append.mp hx with h | h
      · rcases List.mem_append.mp h with h | h
        · exact freeNode_place_below a p .op1 _ h rfl
        · exact freeNode_place_below b p .op2 _ h rfl
      · exact node_not_mem_names oper ident p p h

/-- C12. `freeNode(root)` makes no call of `free` twice; it calls `free(node)` for the
nodes of the tree and for nothing else, and `free(ident)` for the names of the
`CUSTOM_OPER` nodes and for nothing else.  At a function call the first operand's subtree
is released first, then the second's, then the name (for `CUSTOM_OPER` only), then the
node; a number leaf or a malformed node is released alone; an absent node releases
nothing.  ADD(NEGATE(3), MULT(2,4)) releases its six nodes and no string. -/
theorem freeNode_releases_once (root : AST_NODE) :
    (freeNode root []).Nodup ∧
      (∀ q : Path, Release.node q ∈ freeNode root [] ↔ nodeAt root q ≠ .null) ∧
      (∀ (q : Path) (s : CString), Release.name q s ∈ freeNode root [] ↔
        ∃ a b, nodeAt root q = .func .CUSTOM_OPER (some s) a b) ∧
      (∀ (oper : OPER_TYPE) (ident : Option CString) (op1 op2 : AST_NODE) (p : Path),
        freeNode (.func oper ident op1 op2) p
          = freeNode op1 (p ++ [.op1]) ++ freeNode op2 (p ++ [.op2]) ++
              (if oper = .CUSTOM_OPER then ident.toList.map (Release.name p) else []) ++
              [.node p]) ∧
      (∀ p : Path, freeNode .null p = []) ∧
      freeNode (createFunctionNode ⟨100, "add"⟩
          (createFunctionNode ⟨101, "neg"⟩
            (createNumberNode (.fin false 3 0) .INT_TYPE) .null).node
          (createFunctionNode ⟨102, "mult"⟩
            (createNumberNode (.fin false 2 0) .INT_TYPE)
            (createNumberNode (.fin false 4 0) .INT_TYPE)).node).node []
        = [.node [.op1, .op1], .node [.op1], .node [.op2, .op1], .node [.op2, .op2],
           .node [.op2], .node []] ∧
      freeNode (createFunctionNode ⟨103, "myFunc"⟩
          (createNumberNode (.fin false 3 0) .INT_TYPE) .null).node []
        = [.node [.op1], .name [] ⟨103, "myFunc"⟩, .node []] := by
  refine ⟨freeNode_nodup root [], ?_, ?_, ?_, fun _ => rfl, by decide, by decide⟩
  · intro q
    rw [freeNode_node_mem]
    simp
  · intro q s
    rw [freeNode_name_mem]
    simp
  · intro oper ident op1 op2 p
    cases ident <;> rfl

/-! ## Tags of number leaves below a function call -/

/-- The body of `evalFuncNode` reads of the evaluations of the operands only the magnitude
and what they wrote to `stderr`, never the tag. -/
theorem evalFuncSwitch_congr (M : MathLib) (oper : OPER_TYPE) (r1 r2 s1 s2 : Outcome)
    (h1 : r1.result.value = s1.result.value) (h1e : r1.stderr = s1.stderr)
    (h2 : r2.result.value = s2.result.value) (h2e : r2.stderr = s2.stderr) :
    evalFuncSwitch M oper r1 r2 = evalFuncSwitch M oper s1 s2 := by
  cases oper <;> simp [evalFuncSwitch, h1, h1e, h2, h2e]

/-- Setting the tags of all number leaves to `INT_TYPE` changes neither the magnitude that
`eval` returns nor what it writes to `stderr`. -/
theorem eval_eraseTags (M : MathLib) (t : AST_NODE) :
    (eval M (eraseTags t)).result.value = (eval M t).result.value ∧
      (eval M (eraseTags t)).stderr = (eval M t).stderr := by
  induction t with
  | null => exact ⟨rfl, rfl⟩
  | num number => exact ⟨rfl, rfl⟩
  | invalid a b _ _ => exact ⟨rfl, rfl⟩
  | func oper ident a b iha ihb =>
    have h : eval M (eraseTags (.func oper ident a b)) = eval M (.func oper ident a b) :=
      evalFuncSwitch_congr M oper _ _ _ _ iha.1 iha.2 ihb.1 ihb.2
    rw [h]
    exact ⟨rfl, rfl⟩

theorem eval_eraseTags_func (M : MathLib) (oper : OPER_TYPE) (ident : Option CString)
    (a b : AST_NODE) :
    eval M (.func oper ident (eraseTags a) (eraseTags b)) = eval M (.func oper ident a b) :=
  evalFuncSwitch_congr M oper _ _ _ _ (eval_eraseTags M a).1 (eval_eraseTags M a).2
    (eval_eraseTags M b).1 (eval_eraseTags M b).2

/-- C19. Two trees rooted at a function call that have the same shape, operations, names
and leaf magnitudes, and differ at most in the tags of their number leaves, evaluate to the
same tag and the same magnitude (and write the same to `stderr`). -/
theorem eval_tags_irrelevant (M : MathLib) (oper : OPER_TYPE) (ident : Option CString)
    (op1 op2 t2 : AST_NODE) (h : eraseTags (.func oper ident op1 op2) = eraseTags t2) :
    (eval M (.func oper ident op1 op2)).result.type = (eval M t2).result.type ∧
      (eval M (.func oper ident op1 op2)).result.value = (eval M t2).result.value ∧
      eval M (.func oper ident op1 op2) = eval M t2 := by
  have key : eval M (.func oper ident op1 op2) = eval M t2 := by
    cases t2 with
    | null => simp [eraseTags] at h
    | num number => simp [eraseTags] at h
    | invalid a b => simp [eraseTags] at h
    | func o i a b =>
      simp only [eraseTags, AST_NODE.func.injEq] at h
      obtain ⟨ho, hi, ha, hb⟩ := h
      subst ho
      subst hi
      rw [← eval_eraseTags_func M oper ident op1 op2, ha, hb, eval_eraseTags_func]
  rw [key]
  exact ⟨rfl, rfl, rfl⟩

/-- C19, at ADD(2.5, 0.25) with both leaves tagged `INT_TYPE` and with both tagged
`DOUBLE_TYPE`: either tree evaluates to 2.75 with the tag `INT_TYPE`. -/
theorem eval_tags_irrelevant_witness :
    eraseTags (.func .ADD_OPER none (leaf .INT_TYPE (.fin false 5 (-1)))
        (leaf .INT_TYPE (.fin false 1 (-2))))
        = eraseTags (.func .ADD_OPER none (leaf .DOUBLE_TYPE (.fin false 5 (-1)))
            (leaf .DOUBLE_TYPE (.fin false 1 (-2)))) ∧
      eval MathLib.nanLib (.func .ADD_OPER none (leaf .INT_TYPE (.fin false 5 (-1)))
        (leaf .INT_TYPE (.fin false 1 (-2))))
        = eval MathLib.nanLib (.func .ADD_OPER none (leaf .DOUBLE_TYPE (.fin false 5 (-1)))
            (leaf .DOUBLE_TYPE (.fin false 1 (-2)))) ∧
      (eval MathLib.nanLib (.func .ADD_OPER none (leaf .DOUBLE_TYPE (.fin false 5 (-1)))
        (leaf .DOUBLE_TYPE (.fin false 1 (-2))))).result
        = { type := .INT_TYPE, value := .fin false 11 (-2) } :=
  ⟨rfl,
    (eval_tags_irrelevant MathLib.nanLib .ADD_OPER none (leaf .INT_TYPE (.fin false 5 (-1)))
      (leaf .INT_TYPE (.fin false 1 (-2)))
      (.func .ADD_OPER none (leaf .DOUBLE_TYPE (.fin false 5 (-1)))
        (leaf .DOUBLE_TYPE (.fin false 1 (-2)))) rfl).2.2,
    by decide⟩

end CiLisp
